import Mathlib

/-!
Verification of the session-cart and notification core of a conversational
food-ordering webhook (FastAPI + MongoDB + multi-channel notifications).

The Python sources are shallowly embedded below:
* `webhook/db_helper.py`  — data-access helpers over MongoDB collections,
  modelled as pure functions over an explicit `DB` state; every helper wraps
  its body in `try/except` that logs and returns a default, which is modelled
  by the `writeOk` flag (a failing write leaves the state unchanged and
  reports nothing to the caller).
* `webhook/main.py`       — intent handlers (`add_to_order`,
  `remove_from_order`, `complete_order`, `order_summary_intent`,
  `collect_phone_number`, `collect_email`), modelled as functions from
  parameters and `DB` state to a response plus the next `DB` state.
  A Python exception caught by the handler's `except` block is modelled by
  the corresponding generic-error response.
* `webhook/notification_system.py` — the `NotificationSystem` class.
  Outbound HTTP/SMTP results are modelled by a `Network` oracle telling
  whether each provider call would succeed; the provider chain itself is
  embedded faithfully.

Python dictionaries are modelled as association lists with unique keys and
insertion order preserved (`alistSet` updates in place, `alistDel` removes).
-/

namespace FoodBot

/-! ### Association-list model of Python dicts -/

/-- `d.get(k)` on a Python dict: first (unique) binding of `k`. -/
def alistGet {α : Type} (l : List (String × α)) (k : String) : Option α :=
  (l.find? (fun p => p.1 == k)).map (fun p => p.2)

/-- `d.get(k, dflt)`. -/
def alistGetD {α : Type} (l : List (String × α)) (k : String) (d : α) : α :=
  (alistGet l k).getD d

/-- `k in d`. -/
def alistHas {α : Type} (l : List (String × α)) (k : String) : Bool :=
  l.any (fun p => p.1 == k)

/-- `d[k] = v`: update in place (Python dicts keep the insertion position of
an existing key), append when the key is new. -/
def alistSet {α : Type} (l : List (String × α)) (k : String) (v : α) :
    List (String × α) :=
  if l.any (fun p => p.1 == k) then
    l.map (fun p => if p.1 == k then (k, v) else p)
  else
    l ++ [(k, v)]

/-- `del d[k]` (on a unique-keys list, removing every binding of `k` is the
same as removing the one binding). -/
def alistDel {α : Type} (l : List (String × α)) (k : String) :
    List (String × α) :=
  l.filter (fun p => p.1 != k)

/-! ### String helpers

The embedding avoids the byte-position-based core `String` functions and
works on the character list instead, which the kernel reduces directly. -/

/-- `s.startswith(p)`. -/
def strStartsWith (s p : String) : Bool :=
  List.isPrefixOf p.toList s.toList

/-- `s[n:]` (drop the first `n` characters). -/
def strDrop (s : String) (n : Nat) : String :=
  String.mk (s.toList.drop n)

/-- `s.lower()` (the sources only ever hold ASCII names). -/
def lowerString (s : String) : String :=
  String.mk (s.toList.map Char.toLower)

/-- Characters kept by the sanitizer regex class `[a-zA-Z0-9\- ]`. -/
def isAllowedChar (c : Char) : Bool :=
  (('a' ≤ c) && (c ≤ 'z')) || (('A' ≤ c) && (c ≤ 'Z')) ||
    (('0' ≤ c) && (c ≤ '9')) || (c == '-') || (c == ' ')

/-- `.strip()` — after the sanitizer filter only spaces can remain at the
ends, so stripping whitespace is stripping spaces. -/
def stripSpaces (l : List Char) : List Char :=
  ((l.dropWhile (fun c => c == ' ')).reverse.dropWhile (fun c => c == ' ')).reverse

/-- `main.sanitize_food_item`:
`re.sub(r"[^a-zA-Z0-9\- ]", "", item).strip().lower()[:30]`. -/
def sanitize_food_item (item : String) : String :=
  String.mk (((stripSpaces (item.toList.filter isAllowedChar)).map Char.toLower).take 30)

/-! ### Data model -/

/-- One document of the `food_items` collection (fields the core reads). -/
structure CatalogItem where
  name : String
  price : Int
  itemId : Int := 0
deriving Repr, DecidableEq

/-- A session's in-progress cart: Python dict item-name → quantity. -/
abbrev Cart := List (String × Int)

/-- One document of the `user_contacts` collection. -/
structure Contact where
  phone : Option String := none
  email : Option String := none
deriving Repr, DecidableEq

/-- The MongoDB state touched by the cart/contact flow.  `writeOk` models
whether a write to the store succeeds; every `db_helper` write swallows its
exceptions (`except ... print`), so a failing write leaves the collections
unchanged and the caller is not told. -/
structure DB where
  inprogressOrders : List (String × Cart) := []
  userContacts : List (String × Contact) := []
  writeOk : Bool := true
deriving Repr, DecidableEq

/-- The Dialogflow parameter bag as read by the order intents.
`foodItems` is the `"food-item"` entry (`none` = key missing or non-list);
`numbers` is the `"number"` entry, each element being `some n` when `int(q)`
parses to `n` and `none` when `int(q)` raises. -/
structure Params where
  foodItems : Option (List String) := none
  numbers : Option (List (Option Int)) := none
deriving Repr, DecidableEq

/-- A webhook JSON response: `fulfillmentText` and `status_code` are always
present; the remaining payload fields appear on the responses that carry
them (`none` = field absent from the JSON). -/
structure Resp where
  fulfillmentText : String
  statusCode : String
  orderSummary : Option Cart := none
  removedItems : Option (List String) := none
  remainingItems : Option Cart := none
  orderId : Option Int := none
  totalPrice : Option Int := none
deriving Repr, DecidableEq

/-! ### db_helper.py -/

/-- `db_helper.food_item_exists`: case-insensitive exact-name match
(`^re.escape(item)$` with the `i` option) against `food_items`. -/
def food_item_exists (cat : List CatalogItem) (item_name : String) : Bool :=
  cat.any (fun c => lowerString c.name == lowerString item_name)

/-- `db_helper.get_item_price`: price of the case-insensitive match, `0`
when the item is missing (and `0` on any lookup error). -/
def get_item_price (cat : List CatalogItem) (item_name : String) : Int :=
  match cat.find? (fun c => lowerString c.name == lowerString item_name) with
  | some food => food.price
  | none => 0

/-- `db_helper.get_inprogress_order` (with `main.get_order`'s `or {}`):
the session's cart, or the empty dict when absent. -/
def get_inprogress_order (db : DB) (session_id : String) : Cart :=
  (alistGet db.inprogressOrders session_id).getD []

/-- `db_helper.set_inprogress_order`: upsert of the session's cart.  The
Python body catches every exception and only prints it, so a failing write
(`writeOk = false`) leaves the store unchanged and reports nothing. -/
def set_inprogress_order (db : DB) (session_id : String) (order : Cart) : DB :=
  if db.writeOk then
    { db with inprogressOrders := alistSet db.inprogressOrders session_id order }
  else
    db

/-- `db_helper.delete_inprogress_order`; failures are swallowed the same way. -/
def delete_inprogress_order (db : DB) (session_id : String) : DB :=
  if db.writeOk then
    { db with inprogressOrders := alistDel db.inprogressOrders session_id }
  else
    db

/-- `db_helper.set_user_phone`: upsert `$set {phone: ...}`, returning `true`
on success and `false` when the write failed (exception printed). -/
def set_user_phone (db : DB) (session_id phone : String) : DB × Bool :=
  if db.writeOk then
    let c := (alistGet db.userContacts session_id).getD {}
    ({ db with userContacts := alistSet db.userContacts session_id { c with phone := some phone } }, true)
  else
    (db, false)

/-- `db_helper.set_user_email`: upsert `$set {email: ...}`. -/
def set_user_email (db : DB) (session_id email : String) : DB × Bool :=
  if db.writeOk then
    let c := (alistGet db.userContacts session_id).getD {}
    ({ db with userContacts := alistSet db.userContacts session_id { c with email := some email } }, true)
  else
    (db, false)

/-- `db_helper.get_user_phone`. -/
def get_user_phone (db : DB) (session_id : String) : Option String :=
  match alistGet db.userContacts session_id with
  | some c => c.phone
  | none => none

/-- `db_helper.get_user_email`. -/
def get_user_email (db : DB) (session_id : String) : Option String :=
  match alistGet db.userContacts session_id with
  | some c => c.email
  | none => none

/-! ### main.py — validation and the cart intents -/

/-- `main.validate_order_params`.  Note Python truthiness: a missing or
empty `food-item` list is rejected; a missing or empty `number` list skips
quantity validation entirely (`if quantities:`).  The checks run in source
order: length, integer parse, positivity. -/
def validate_order_params (p : Params) : Bool × String :=
  match p.foodItems with
  | none => (false, "Please specify valid food items.")
  | some food_items =>
    if food_items.isEmpty then (false, "Please specify valid food items.")
    else
      match p.numbers with
      | none => (true, "")
      | some quantities =>
        if quantities.isEmpty then (true, "")
        else if quantities.length != food_items.length then
          (false, "Please specify quantity for each food item.")
        else if quantities.any (fun q => q.isNone) then
          (false, "Quantities must be numbers.")
        else if !(quantities.all (fun q => q.getD 0 > 0)) then
          (false, "Quantities must be positive numbers.")
        else (true, "")

/-- Modelled from the spec: `generic_helper.get_str_from_food_dict` is
imported by `main.py` but `generic_helper.py` is not among the provided
sources; per the spec the operation returns "a human-readable summary
string of the form `qty1 item1, qty2 item2`". -/
def get_str_from_food_dict (d : Cart) : String :=
  String.intercalate ", " (d.map (fun kv => toString kv.2 ++ " " ++ kv.1))

/-- `dict(zip(food_items, quantities))`: later duplicates overwrite the
value while keeping the first occurrence's position. -/
def dictOfZip (ks : List String) (vs : List Int) : Cart :=
  (ks.zip vs).foldl (fun d kv => alistSet d kv.1 kv.2) []

/-- Generic error text of `add_to_order`'s `except` handler. -/
def addErrorMsg : String := "Sorry, an error occurred while adding to your order."

/-- Generic error text of `remove_from_order`'s `except` handler. -/
def removeErrorMsg : String := "Sorry, an error occurred while removing from your order."

/-- The per-item loop of `add_to_order`: look each new item up in the
catalog, aborting with the first unknown item, otherwise
`current_order[item] = current_order.get(item, 0) + qty`. -/
def addLoop (cat : List CatalogItem) (current : Cart) :
    List (String × Int) → Except String Cart
  | [] => Except.ok current
  | (item, qty) :: rest =>
    if !(food_item_exists cat item) then Except.error item
    else addLoop cat (alistSet current item (alistGetD current item 0 + qty)) rest

/-- `main.add_to_order`.  After validation the handler evaluates
`[int(q) for q in parameters["number"]]`: a missing `"number"` key raises
`KeyError` and an unparseable entry raises `ValueError`, both caught by the
handler's `except` (generic error, no write).  The item-not-found response
in Python wraps the item name in single quotation marks; those marks are
elided here. -/
def add_to_order (cat : List CatalogItem) (db : DB) (session_id : String)
    (p : Params) : Resp × DB :=
  let v := validate_order_params p
  if !v.1 then ({ fulfillmentText := v.2, statusCode := "error" }, db)
  else
    match p.numbers with
    | none =>
      ({ fulfillmentText := addErrorMsg, statusCode := "error" }, db)
    | some rawQs =>
      if rawQs.any (fun q => q.isNone) then
        ({ fulfillmentText := addErrorMsg, statusCode := "error" }, db)
      else
        let food_items := (p.foodItems.getD []).map sanitize_food_item
        let quantities := rawQs.map (fun q => q.getD 0)
        let new_food_dict := dictOfZip food_items quantities
        let current_order := get_inprogress_order db session_id
        match addLoop cat current_order new_food_dict with
        | Except.error item =>
          ({ fulfillmentText := "Sorry, " ++ item ++ " is not available in our menu.",
             statusCode := "error" }, db)
        | Except.ok cart =>
          let db2 := set_inprogress_order db session_id cart
          ({ fulfillmentText := "So far you have: " ++ get_str_from_food_dict cart ++
               ". Do you need anything else?",
             orderSummary := some cart,
             statusCode := "success" }, db2)

/-- The per-item loop of `remove_from_order`.  The source runs
`del current_order[item]` unconditionally after the `if/else`: when the item
is absent it is first appended to `no_such_items`, but the `del` then raises
`KeyError` (modelled by `Except.error ()`), discarding the locals and landing
in the handler's `except`.  When the item is present the would-be remainder
is written and the entry is then deleted anyway. -/
def removeLoop (current : Cart) (removed : List String) :
    List (String × Int) → Except Unit (Cart × List String)
  | [] => Except.ok (current, removed)
  | (item, qty) :: rest =>
    if !(alistHas current item) then
      Except.error ()
    else
      let cur := alistGetD current item 0
      if cur > qty then
        removeLoop (alistDel (alistSet current item (cur - qty)) item)
          (removed ++ [toString qty ++ " " ++ item]) rest
      else
        removeLoop (alistDel current item)
          (removed ++ [toString cur ++ " " ++ item]) rest

/-- `quantities = parameters.get("number") or [1] * len(food_items)`:
a missing key and an empty list are both falsy and default every item to
quantity 1. -/
def resolveRemoveQuantities (p : Params) (n : Nat) : List (Option Int) :=
  match p.numbers with
  | none => List.replicate n (some 1)
  | some [] => List.replicate n (some 1)
  | some qs => qs

/-- `main.remove_from_order`.  On the success path `no_such_items` is always
empty (an absent item raises inside the loop first), so only the
removed-items sentence of the fulfillment text can occur. -/
def remove_from_order (db : DB) (session_id : String) (p : Params) : Resp × DB :=
  let v := validate_order_params p
  if !v.1 then ({ fulfillmentText := v.2, statusCode := "error" }, db)
  else
    let food_items := (p.foodItems.getD []).map sanitize_food_item
    let rawQs := resolveRemoveQuantities p food_items.length
    if rawQs.any (fun q => q.isNone) then
      ({ fulfillmentText := removeErrorMsg, statusCode := "error" }, db)
    else
      let quantities := rawQs.map (fun q => q.getD 0)
      let current_order := get_inprogress_order db session_id
      match removeLoop current_order [] (food_items.zip quantities) with
      | Except.error _ =>
        ({ fulfillmentText := removeErrorMsg, statusCode := "error" }, db)
      | Except.ok (cart, removed) =>
        let text1 :=
          if !removed.isEmpty then
            "Removed " ++ String.intercalate ", " removed ++ " from your order!"
          else ""
        if cart.isEmpty then
          let db2 := delete_inprogress_order db session_id
          ({ fulfillmentText := text1 ++ " Your order is empty!",
             removedItems := some removed,
             remainingItems := some [],
             statusCode := "success" }, db2)
        else
          let db2 := set_inprogress_order db session_id cart
          ({ fulfillmentText := text1 ++ " Here is what is left in your order: " ++
               get_str_from_food_dict cart,
             removedItems := some removed,
             remainingItems := some cart,
             statusCode := "success" }, db2)

/-- `main.order_summary_intent`: read-only; total amount is
`sum(quantity * get_item_price(item))` with prices resolved at read time. -/
def order_summary_intent (cat : List CatalogItem) (db : DB)
    (session_id : String) : Resp :=
  let order := get_inprogress_order db session_id
  if order.isEmpty then
    { fulfillmentText := "You do not have any items in your order yet.",
      statusCode := "error" }
  else
    let total_items := (order.map (fun kv => kv.2)).sum
    let total_amount := (order.map (fun kv => kv.2 * get_item_price cat kv.1)).sum
    { fulfillmentText := "Your order summary: Total items: " ++ toString total_items ++
        " Total amount: " ++ toString total_amount,
      statusCode := "success" }

/-- `main.collect_phone_number`.  The handler ignores the boolean returned
by `set_user_phone` and answers success whenever a phone value was supplied;
the long confirmation texts are abbreviated here (their choice depends on
whether an email is already stored). -/
def collect_phone_number (db : DB) (session_id : String)
    (phone_number : Option String) : Resp × DB :=
  match phone_number with
  | none =>
    ({ fulfillmentText := "Please provide your phone number so I can send you order updates via SMS and WhatsApp.",
       statusCode := "error" }, db)
  | some ph =>
    let st := set_user_phone db session_id ph
    let db2 := st.1
    let email := get_user_email db2 session_id
    let text :=
      if email.isSome then
        "Great! I have saved your phone number: " ++ ph ++ ". Your contact information is complete!"
      else
        "Great! I have saved your phone number: " ++ ph ++ ". Please provide your email address for email notifications as well."
    ({ fulfillmentText := text, statusCode := "success" }, db2)

/-- `main.collect_email`; like `collect_phone_number`, the stored-write
boolean is ignored (both message branches are in fact the same string in the
source). -/
def collect_email (db : DB) (session_id : String)
    (email : Option String) : Resp × DB :=
  match email with
  | none =>
    ({ fulfillmentText := "Please provide your email address so I can send you order updates via email.",
       statusCode := "error" }, db)
  | some em =>
    let st := set_user_email db session_id em
    let db2 := st.1
    ({ fulfillmentText := "Perfect! I have saved your email: " ++ em ++
         ". I will send you notifications via SMS, WhatsApp, and Email.",
       statusCode := "success" }, db2)

/-! ### notification_system.py -/

/-- The environment-variable credentials read by `NotificationSystem.__init__`.
Python tests each credential for truthiness, so `some s` stands for a
non-empty configured value and `none` for a missing (or empty) one. -/
structure NotifConfig where
  msg91AuthKey : Option String := none
  whatsappToken : Option String := none
  whatsappPhoneId : Option String := none
  greenapiInstanceId : Option String := none
  greenapiToken : Option String := none
  emailUser : Option String := none
  emailPassword : Option String := none
deriving Repr, DecidableEq

/-- Oracle for the outbound network calls: whether each provider's HTTP/SMTP
request would report success (status 200 / accepted message). -/
structure Network where
  msg91Ok : Bool := false
  businessApiOk : Bool := false
  greenapiOk : Bool := false
  emailOk : Bool := false
deriving Repr, DecidableEq

/-- The Python result dict `{"success": ..., "method": ..., "error": ...}`
(the SMS result's `message_id` field is not modelled). -/
structure SendResult where
  success : Bool
  method : Option String := none
  error : Option String := none
deriving Repr, DecidableEq

/-- The number normalization at the top of `send_sms`:
prepend `+92` to numbers without a `+`, rewrite a `+0` prefix to `+92`. -/
def formatSmsNumber (to_number : String) : String :=
  if !(strStartsWith to_number "+") then "+92" ++ to_number
  else if strStartsWith to_number "+0" then "+92" ++ strDrop to_number 2
  else to_number

/-- The number normalization at the top of `send_whatsapp` (only the `+0`
rewrite; no default prefix). -/
def formatWhatsappNumber (to_number : String) : String :=
  if strStartsWith to_number "+0" then "+92" ++ strDrop to_number 2
  else to_number

/-- `NotificationSystem.send_sms` (MSG91, single provider): unconfigured
auth key is an immediate failure; otherwise the HTTP result decides. -/
def send_sms (cfg : NotifConfig) (net : Network) (to_number message : String) :
    SendResult :=
  if cfg.msg91AuthKey.isNone then
    { success := false, error := some "MSG91 auth key not configured" }
  else
    let n := formatSmsNumber to_number
    if net.msg91Ok then { success := true }
    else { success := false, error := some ("SMS sending failed to " ++ n ++ ": " ++ message) }

/-- `NotificationSystem._send_whatsapp_business_api`. -/
def send_whatsapp_business_api (net : Network) : SendResult :=
  if net.businessApiOk then { success := true, method := some "business_api" }
  else { success := false, error := some "WhatsApp Business API failed" }

/-- `NotificationSystem._send_whatsapp_greenapi` (success when some GreenAPI
endpoint returns 200 with an `idMessage`). -/
def send_whatsapp_greenapi (net : Network) : SendResult :=
  if net.greenapiOk then { success := true, method := some "greenapi" }
  else { success := false, error := some "All GreenAPI endpoints failed" }

/-- `NotificationSystem._send_whatsapp_simple`: only logs, always succeeds. -/
def send_whatsapp_simple : SendResult :=
  { success := true, method := some "simple", error := none }

/-- One stage of `send_whatsapp`'s sequential conditional calls: if no
earlier provider succeeded and this one is configured, attempt it (recording
the attempt) and keep its result when it succeeds.  Unconfigured providers
are skipped without being attempted. -/
def chainStep (configured : Bool) (result : SendResult) (name : String)
    (st : Option SendResult × List String) : Option SendResult × List String :=
  match st with
  | (some r, att) => (some r, att)
  | (none, att) =>
    if configured then
      if result.success then (some result, att ++ [name])
      else (none, att ++ [name])
    else (none, att)

/-- `NotificationSystem.send_whatsapp`: business API (if token and phone id
are configured), then GreenAPI (if token and instance id are configured),
then the always-succeeding local provider; stop at the first success,
otherwise report that all methods failed.  The attempted-providers list is a
ghost trace recording which providers were actually called. -/
def send_whatsapp (cfg : NotifConfig) (net : Network) (to_number : String) :
    SendResult × List String :=
  let n := formatWhatsappNumber to_number
  let st0 : Option SendResult × List String := (none, [])
  let st1 := chainStep (cfg.whatsappToken.isSome && cfg.whatsappPhoneId.isSome)
    (send_whatsapp_business_api net) "business_api" st0
  let st2 := chainStep (cfg.greenapiToken.isSome && cfg.greenapiInstanceId.isSome)
    (send_whatsapp_greenapi net) "greenapi" st1
  let st3 := chainStep true send_whatsapp_simple "simple" st2
  match st3 with
  | (some r, att) => (r, att)
  | (none, att) =>
    ({ success := false, error := some ("All WhatsApp methods failed for " ++ n) }, att)

/-- `NotificationSystem.send_email` (Gmail SMTP, single provider): missing
credentials are a configuration failure; otherwise the SMTP result decides. -/
def send_email (cfg : NotifConfig) (net : Network)
    (to_email subject html_content : String) : SendResult :=
  if cfg.emailUser.isNone || cfg.emailPassword.isNone then
    { success := false, error := some "Email credentials not configured" }
  else if net.emailOk then { success := true }
  else { success := false, error := some ("Email sending failed to " ++ to_email ++ " " ++ subject ++ html_content) }

/-- The order data handed to the dispatcher (`order_details` dict). -/
structure OrderDetails where
  orderId : String
  status : String
  totalAmount : Int
  items : Cart
  itemPrices : List (String × Int)
  eta : String := "30-45 minutes"
deriving Repr, DecidableEq

/-- `_create_order_confirmation_sms` (the `:.2f` money formatting and emoji
of the source template are elided; only the textual skeleton is kept). -/
def create_order_confirmation_sms (od : OrderDetails) : String :=
  "FoodiBot Order Confirmation Order " ++ od.orderId ++ " Status: " ++ od.status ++
    " Total: Rs. " ++ toString od.totalAmount ++ " ETA: " ++ od.eta

/-- `_create_order_confirmation_email_html` skeleton. -/
def create_order_confirmation_email_html (od : OrderDetails) : String :=
  "FoodiBot Order Confirmation Order " ++ od.orderId ++ " Status: " ++ od.status ++
    " Total: Rs." ++ toString od.totalAmount ++ " " ++
    String.intercalate " " (od.items.map (fun kv => toString kv.2 ++ "x " ++ kv.1))

/-- `NotificationSystem.send_order_confirmation`: one independent attempt
per channel, attempted only when the corresponding contact value is present
(the phone entry of `user_info` for sms and whatsapp, the email entry for
email); the result mapping collects exactly the attempted channels. -/
def send_order_confirmation (cfg : NotifConfig) (net : Network)
    (user_info : Contact) (od : OrderDetails) : List (String × SendResult) :=
  let smsRes :=
    match user_info.phone with
    | some ph => [("sms", send_sms cfg net ph (create_order_confirmation_sms od))]
    | none => []
  let waRes :=
    match user_info.phone with
    | some ph => [("whatsapp", (send_whatsapp cfg net ph).1)]
    | none => []
  let emailRes :=
    match user_info.email with
    | some em =>
      [("email", send_email cfg net em
          ("Order Confirmation - " ++ od.orderId)
          (create_order_confirmation_email_html od))]
    | none => []
  smsRes ++ waRes ++ emailRes

/-! ### main.py — complete_order -/

/-- `main.complete_order`.  `now` stands for `int(time.time())` (the order
id).  Whenever the cart is non-empty every branch — whichever contact
information is on file, and whatever the notification results are — returns
a success response carrying the order id and the catalog-priced total; the
long per-branch fulfillment texts are abbreviated to their distinguishing
heads. -/
def complete_order (cfg : NotifConfig) (net : Network) (cat : List CatalogItem)
    (db : DB) (session_id : String) (now : Int) : Resp × DB :=
  let order := get_inprogress_order db session_id
  if order.isEmpty then
    ({ fulfillmentText := "I am having trouble finding your order. Sorry! Can you place a new order please?",
       statusCode := "error" }, db)
  else
    let total_amount := (order.map (fun kv => kv.2 * get_item_price cat kv.1)).sum
    let order_id := now
    let phone_number := get_user_phone db session_id
    let email := get_user_email db session_id
    match phone_number, email with
    | none, _ =>
      ({ fulfillmentText := "Order placed. Please provide your phone number.",
         orderId := some order_id, totalPrice := some total_amount,
         statusCode := "success" }, db)
    | some _, none =>
      ({ fulfillmentText := "Order placed. Please provide your email address.",
         orderId := some order_id, totalPrice := some total_amount,
         statusCode := "success" }, db)
    | some ph, some em =>
      let od : OrderDetails :=
        { orderId := toString order_id, status := "confirmed",
          totalAmount := total_amount, items := order,
          itemPrices := order.map (fun kv => (kv.1, get_item_price cat kv.1)),
          eta := "30-45 minutes" }
      let results := send_order_confirmation cfg net { phone := some ph, email := some em } od
      let anySuccess := results.any (fun cr => cr.2.success)
      let text :=
        if anySuccess then "Order placed. Order confirmation sent."
        else "Order placed. Notification sending failed, but your order is saved!"
      ({ fulfillmentText := text,
         orderId := some order_id, totalPrice := some total_amount,
         statusCode := "success" }, db)

/-! ### Lemmas about the association-list dict model -/

theorem mem_of_alistGet_eq_some {α : Type} {l : List (String × α)} {k : String} {v : α}
    (h : alistGet l k = some v) : (k, v) ∈ l := by
  unfold alistGet at h
  cases hf : l.find? (fun p => p.1 == k) with
  | none => rw [hf] at h; simp at h
  | some q =>
    rw [hf] at h
    simp only [Option.map_some'] at h
    have hmem := List.mem_of_find?_eq_some hf
    have hq := List.find?_some hf
    have hk : q.1 = k := by simpa using hq
    have : q = (k, v) := by
      cases q with
      | mk a b => simp only [Option.some.injEq] at h; simp_all
    rw [← this]; exact hmem

theorem alistHas_true_iff {α : Type} {l : List (String × α)} {k : String} :
    alistHas l k = true ↔ ∃ v, (k, v) ∈ l := by
  unfold alistHas
  rw [List.any_eq_true]
  constructor
  · rintro ⟨q, hq, hb⟩
    have hk : q.1 = k := by simpa using hb
    exact ⟨q.2, by cases q; simp_all⟩
  · rintro ⟨v, hv⟩
    exact ⟨(k, v), hv, by simp⟩

theorem mem_alistSet {α : Type} {l : List (String × α)} {k : String} {v : α}
    {kv : String × α} (h : kv ∈ alistSet l k v) : kv ∈ l ∨ kv = (k, v) := by
  unfold alistSet at h
  split at h
  · rcases List.mem_map.mp h with ⟨q, hq, he⟩
    by_cases hk : q.1 == k
    · right; rw [if_pos hk] at he; exact he.symm
    · left; rw [if_neg hk] at he; rw [← he]; exact hq
  · rcases List.mem_append.mp h with h1 | h1
    · exact Or.inl h1
    · right; simpa using h1

theorem mem_alistSet_self {α : Type} (l : List (String × α)) (k : String) (v : α) :
    (k, v) ∈ alistSet l k v := by
  unfold alistSet
  split
  case isTrue hhas =>
    rcases List.any_eq_true.mp hhas with ⟨q, hq, hb⟩
    exact List.mem_map.mpr ⟨q, hq, by rw [if_pos hb]⟩
  case isFalse =>
    exact List.mem_append.mpr (Or.inr (by simp))

theorem mem_alistSet_of_ne {α : Type} {l : List (String × α)} {k : String} {v : α}
    {kv : String × α} (h : kv ∈ l) (hne : kv.1 ≠ k) : kv ∈ alistSet l k v := by
  unfold alistSet
  split
  · refine List.mem_map.mpr ⟨kv, h, ?_⟩
    rw [if_neg (by simpa using hne)]
  · exact List.mem_append.mpr (Or.inl h)

theorem mem_alistDel {α : Type} {l : List (String × α)} {k : String}
    {kv : String × α} (h : kv ∈ alistDel l k) : kv ∈ l :=
  List.mem_of_mem_filter h

theorem alistHas_alistDel_self {α : Type} (l : List (String × α)) (k : String) :
    alistHas (alistDel l k) k = false := by
  unfold alistHas alistDel
  rw [List.any_eq_false]
  intro q hq
  have h2 := (List.mem_filter.mp hq).2
  simp only [bne_iff_ne, ne_eq] at h2
  simpa using h2

theorem alistHas_alistDel_ne {α : Type} (l : List (String × α)) {k k' : String}
    (h : k' ≠ k) : alistHas (alistDel l k) k' = alistHas l k' := by
  unfold alistHas alistDel
  cases hr : l.any (fun p => p.1 == k') with
  | true =>
    rcases List.any_eq_true.mp hr with ⟨q, hq, hb⟩
    have hk : q.1 = k' := by simpa using hb
    refine List.any_eq_true.mpr ⟨q, List.mem_filter.mpr ⟨hq, ?_⟩, hb⟩
    simp [hk, h]
  | false =>
    rw [List.any_eq_false] at hr ⊢
    intro q hq
    exact hr q (List.mem_of_mem_filter hq)

theorem alistGet_alistDel_ne {α : Type} {k k' : String} (h : k' ≠ k) :
    ∀ l : List (String × α), alistGet (alistDel l k) k' = alistGet l k' := by
  intro l
  induction l with
  | nil => rfl
  | cons q t ih =>
    by_cases hq : q.1 = k
    · have hdrop : List.filter (fun p => p.1 != k) (q :: t) =
          List.filter (fun p => p.1 != k) t := by
        simp [List.filter_cons, hq]
      have hskip : ((q :: t).find? (fun p => p.1 == k')) = t.find? (fun p => p.1 == k') :=
        List.find?_cons_of_neg _ (by simp [hq]; exact fun e => h e.symm)
      unfold alistGet alistDel at ih ⊢
      rw [hdrop, hskip]
      exact ih
    · by_cases hq' : q.1 = k'
      · have hkeep : List.filter (fun p => p.1 != k) (q :: t) =
            q :: List.filter (fun p => p.1 != k) t := by
          simp [List.filter_cons, hq]
        unfold alistGet alistDel at ih ⊢
        rw [hkeep, List.find?_cons_of_pos _ (by simp [hq']),
          List.find?_cons_of_pos _ (by simp [hq'])]
      · have hkeep : List.filter (fun p => p.1 != k) (q :: t) =
            q :: List.filter (fun p => p.1 != k) t := by
          simp [List.filter_cons, hq]
        unfold alistGet alistDel at ih ⊢
        rw [hkeep, List.find?_cons_of_neg _ (by simp [hq']),
          List.find?_cons_of_neg _ (by simp [hq'])]
        exact ih

theorem filter_ne_map_update {α : Type} (k : String) (v : α) :
    ∀ l : List (String × α),
      List.filter (fun p => p.1 != k)
          (l.map (fun p => if p.1 == k then (k, v) else p)) =
        List.filter (fun p => p.1 != k) l := by
  intro l
  induction l with
  | nil => rfl
  | cons q t ih =>
    simp only [List.map_cons, List.filter_cons]
    by_cases hq : q.1 = k
    · rw [if_pos (show (q.1 == k) = true by simpa using hq)]
      rw [if_neg (show ¬((((k, v) : String × α).1 != k) = true) by simp)]
      rw [if_neg (show ¬((q.1 != k) = true) by simp [hq])]
      exact ih
    · rw [if_neg (show ¬((q.1 == k) = true) by simpa using hq)]
      rw [if_pos (show ((q.1 != k) = true) by simp [hq])]
      rw [if_pos (show ((q.1 != k) = true) by simp [hq])]
      rw [ih]

theorem alistDel_alistSet_self {α : Type} (l : List (String × α)) (k : String) (v : α) :
    alistDel (alistSet l k v) k = alistDel l k := by
  unfold alistSet alistDel
  split
  · exact filter_ne_map_update k v l
  · simp [List.filter_append]

/-! ### Lemmas about `dictOfZip` and the add loop -/

theorem mem_foldl_alistSet {ps : List (String × Int)} :
    ∀ {acc : Cart} {kv : String × Int},
      kv ∈ ps.foldl (fun d q => alistSet d q.1 q.2) acc →
      kv ∈ acc ∨ kv.1 ∈ ps.map Prod.fst := by
  induction ps with
  | nil => intro acc kv h; exact Or.inl h
  | cons q rest ih =>
    intro acc kv h
    rcases ih h with h1 | h1
    · rcases mem_alistSet h1 with h2 | h2
      · exact Or.inl h2
      · right; rw [h2]; simp
    · right; simp [h1]

theorem key_mem_foldl_alistSet {ps : List (String × Int)} :
    ∀ {acc : Cart} {x : String},
      ((∃ v, (x, v) ∈ acc) ∨ x ∈ ps.map Prod.fst) →
      ∃ v, (x, v) ∈ ps.foldl (fun d q => alistSet d q.1 q.2) acc := by
  induction ps with
  | nil =>
    intro acc x h
    rcases h with h | h
    · exact h
    · simp at h
  | cons q rest ih =>
    intro acc x h
    apply ih
    rcases h with ⟨v, hv⟩ | h
    · left
      by_cases hx : x = q.1
      · exact ⟨q.2, hx ▸ mem_alistSet_self acc q.1 q.2⟩
      · exact ⟨v, mem_alistSet_of_ne hv hx⟩
    · simp only [List.map_cons, List.mem_cons] at h
      rcases h with h | h
      · exact Or.inl ⟨q.2, h ▸ mem_alistSet_self acc q.1 q.2⟩
      · exact Or.inr h

theorem pos_foldl_alistSet {ps : List (String × Int)} :
    ∀ {acc : Cart},
      (∀ kv ∈ acc, 0 < kv.2) → (∀ kv ∈ ps, 0 < kv.2) →
      ∀ kv ∈ ps.foldl (fun d q => alistSet d q.1 q.2) acc, 0 < kv.2 := by
  induction ps with
  | nil => intro acc hacc _ kv h; exact hacc kv h
  | cons q rest ih =>
    intro acc hacc hps kv h
    refine ih ?_ (fun kv hkv => hps kv (List.mem_cons_of_mem q hkv)) kv h
    intro kv2 hkv2
    rcases mem_alistSet hkv2 with h2 | h2
    · exact hacc kv2 h2
    · rw [h2]; exact hps q (List.mem_cons_self q rest)

/-! ### Lemmas about the add loop -/

theorem addLoop_error_of_bad {cat : List CatalogItem} :
    ∀ (d : List (String × Int)) (current : Cart),
      (∃ kv ∈ d, food_item_exists cat kv.1 = false) →
      ∃ item, addLoop cat current d = Except.error item ∧
        item ∈ d.map Prod.fst ∧ food_item_exists cat item = false := by
  intro d
  induction d with
  | nil => intro current h; simp at h
  | cons q rest ih =>
    obtain ⟨qk, qv⟩ := q
    intro current h
    by_cases hq : food_item_exists cat qk = true
    · have hrest : ∃ kv ∈ rest, food_item_exists cat kv.1 = false := by
        rcases h with ⟨kv, hkv, hbad⟩
        rcases List.mem_cons.mp hkv with he | hm
        · rw [he] at hbad; simp only at hbad; rw [hq] at hbad; exact absurd hbad (by simp)
        · exact ⟨kv, hm, hbad⟩
      rcases ih (alistSet current qk (alistGetD current qk 0 + qv)) hrest with
        ⟨item, heq, hmem, hbad⟩
      exact ⟨item, by simp [addLoop, hq, heq], by simp [hmem], hbad⟩
    · have hbad : food_item_exists cat qk = false := by simpa using hq
      exact ⟨qk, by simp [addLoop, hbad], by simp, hbad⟩

theorem alistGetD_nonneg {l : Cart} (hl : ∀ kv ∈ l, 0 < kv.2) (k : String) :
    0 ≤ alistGetD l k 0 := by
  unfold alistGetD
  cases hg : alistGet l k with
  | none => simp
  | some v =>
    simp only [Option.getD_some]
    exact le_of_lt (hl (k, v) (mem_of_alistGet_eq_some hg))

theorem addLoop_ok_pos {cat : List CatalogItem} :
    ∀ (d : List (String × Int)) (current cart : Cart),
      (∀ kv ∈ current, 0 < kv.2) → (∀ kv ∈ d, 0 < kv.2) →
      addLoop cat current d = Except.ok cart → ∀ kv ∈ cart, 0 < kv.2 := by
  intro d
  induction d with
  | nil =>
    intro current cart hcur _ heq
    simp only [addLoop, Except.ok.injEq] at heq
    rw [← heq]; exact hcur
  | cons q rest ih =>
    obtain ⟨qk, qv⟩ := q
    intro current cart hcur hd heq
    by_cases hq : food_item_exists cat qk = true
    · simp only [addLoop, hq, Bool.not_true, Bool.false_eq_true, if_false] at heq
      refine ih _ _ ?_ (fun kv hkv => hd kv (by simp [hkv])) heq
      intro kv hkv
      rcases mem_alistSet hkv with h1 | h1
      · exact hcur kv h1
      · have h0 : 0 ≤ alistGetD current qk 0 := alistGetD_nonneg hcur qk
        have hv : 0 < qv := hd (qk, qv) (by simp)
        rw [h1]
        show 0 < alistGetD current qk 0 + qv
        omega
    · have hbad : food_item_exists cat qk = false := by simpa using hq
      simp [addLoop, hbad] at heq

/-! ### Lemmas about the remove loop -/

theorem removeLoop_ok_subset :
    ∀ (todo : List (String × Int)) (current : Cart) (removed : List String)
      (cart : Cart) (removed2 : List String),
      removeLoop current removed todo = Except.ok (cart, removed2) →
      ∀ kv ∈ cart, kv ∈ current := by
  intro todo
  induction todo with
  | nil =>
    intro current removed cart removed2 heq kv hkv
    simp only [removeLoop, Except.ok.injEq, Prod.mk.injEq] at heq
    rw [← heq.1] at hkv
    exact hkv
  | cons q rest ih =>
    obtain ⟨item, qty⟩ := q
    intro current removed cart removed2 heq kv hkv
    by_cases hin : alistHas current item = true
    · simp only [removeLoop, hin, Bool.not_true, Bool.false_eq_true, if_false] at heq
      rw [alistDel_alistSet_self] at heq
      split at heq <;>
        exact mem_alistDel (ih _ _ _ _ heq kv hkv)
    · have hf : alistHas current item = false := by simpa using hin
      simp [removeLoop, hf] at heq

theorem removeLoop_all_present :
    ∀ (todo : List (String × Int)) (current : Cart) (removed : List String),
      (todo.map Prod.fst).Nodup →
      (∀ kv ∈ todo, alistHas current kv.1 = true) →
      ∃ cart, removeLoop current removed todo =
          Except.ok (cart,
            removed ++ todo.map (fun kv =>
              toString (min (alistGetD current kv.1 0) kv.2) ++ " " ++ kv.1)) ∧
        ∀ kv ∈ todo, alistHas cart kv.1 = false := by
  intro todo
  induction todo with
  | nil =>
    intro current removed _ _
    exact ⟨current, by simp [removeLoop], by simp⟩
  | cons q rest ih =>
    obtain ⟨item, qty⟩ := q
    intro current removed hnodup hpres
    have hin : alistHas current item = true := hpres (item, qty) (by simp)
    have hnod_tail : (rest.map Prod.fst).Nodup := by
      simp only [List.map_cons, List.nodup_cons] at hnodup; exact hnodup.2
    have hnotin : item ∉ rest.map Prod.fst := by
      simp only [List.map_cons, List.nodup_cons] at hnodup; exact hnodup.1
    have hne_of_mem : ∀ kv ∈ rest, (kv : String × Int).1 ≠ item := by
      intro kv hkv he
      exact hnotin (he ▸ List.mem_map_of_mem Prod.fst hkv)
    have hpres' : ∀ kv ∈ rest, alistHas (alistDel current item) kv.1 = true := by
      intro kv hkv
      rw [alistHas_alistDel_ne current (hne_of_mem kv hkv)]
      exact hpres kv (by simp [hkv])
    rcases ih (alistDel current item)
        (removed ++ [toString (min (alistGetD current item 0) qty) ++ " " ++ item])
        hnod_tail hpres' with ⟨cart, heq, habs⟩
    have hvals : rest.map (fun kv =>
          toString (min (alistGetD (alistDel current item) kv.1 0) kv.2) ++ " " ++ kv.1) =
        rest.map (fun kv =>
          toString (min (alistGetD current kv.1 0) kv.2) ++ " " ++ kv.1) := by
      apply List.map_congr_left
      intro kv hkv
      unfold alistGetD
      rw [alistGet_alistDel_ne (hne_of_mem kv hkv) current]
    rw [hvals] at heq
    refine ⟨cart, ?_, ?_⟩
    · show removeLoop current removed ((item, qty) :: rest) = _
      simp only [removeLoop, hin, Bool.not_true, Bool.false_eq_true, if_false,
        List.map_cons]
      rw [alistDel_alistSet_self]
      by_cases hgt : alistGetD current item 0 > qty
      · rw [show min (alistGetD current item 0) qty = qty from
          min_eq_right (le_of_lt hgt)] at heq ⊢
        rw [if_pos hgt, heq]
        simp
      · rw [show min (alistGetD current item 0) qty = alistGetD current item 0 from
          min_eq_left (le_of_not_lt hgt)] at heq ⊢
        rw [if_neg hgt, heq]
        simp
    · intro kv hkv
      rcases List.mem_cons.mp hkv with he | hm
      · rw [he]
        show alistHas cart item = false
        by_contra hc
        have hc2 : alistHas cart item = true := by simpa using hc
        rcases alistHas_true_iff.mp hc2 with ⟨v, hv⟩
        have hvc : (item, v) ∈ alistDel current item :=
          removeLoop_ok_subset rest (alistDel current item) _ cart _ heq (item, v) hv
        have hfalse := alistHas_alistDel_self current item
        have htrue : alistHas (alistDel current item) item = true :=
          alistHas_true_iff.mpr ⟨v, hvc⟩
        rw [hfalse] at htrue
        exact absurd htrue (by simp)
      · exact habs kv hm

/-! ### Facts extracted from a passed validation -/

theorem validate_true_pos {fi : Option (List String)} {rawQs : List (Option Int)}
    (hval : (validate_order_params ⟨fi, some rawQs⟩).1 = true) :
    rawQs = [] ∨ ∀ q ∈ rawQs, 0 < q.getD 0 := by
  cases fi with
  | none => simp [validate_order_params] at hval
  | some raw =>
    simp only [validate_order_params] at hval
    split_ifs at hval with h1 h2 h3 h4 h5
    · exact Or.inl (List.isEmpty_iff.mp h2)
    · right
      intro q hq
      have h6 : (rawQs.all fun q => decide (q.getD 0 > 0)) = true := by
        cases hb : rawQs.all fun q => decide (q.getD 0 > 0) with
        | true => rfl
        | false => simp [hb] at h5
      have := List.all_eq_true.mp h6 q hq
      simpa using this

/-! ### The cart-positivity invariant (reachable states) -/

/-- Every entry of the cart has a strictly positive quantity. -/
def PosCart (c : Cart) : Prop := ∀ kv ∈ c, 0 < kv.2

/-- Every persisted cart of every session satisfies `PosCart`. -/
def PosDB (db : DB) : Prop := ∀ sc ∈ db.inprogressOrders, PosCart sc.2

instance (c : Cart) : Decidable (PosCart c) := by unfold PosCart; infer_instance

instance (db : DB) : Decidable (PosDB db) := by unfold PosDB; infer_instance

theorem posCart_get {db : DB} (h : PosDB db) (sid : String) :
    PosCart (get_inprogress_order db sid) := by
  unfold get_inprogress_order
  cases hg : alistGet db.inprogressOrders sid with
  | none => intro kv hkv; simp at hkv
  | some c =>
    simp only [Option.getD_some]
    exact h (sid, c) (mem_of_alistGet_eq_some hg)

theorem posDB_set {db : DB} (h : PosDB db) {cart : Cart} (hc : PosCart cart)
    (sid : String) : PosDB (set_inprogress_order db sid cart) := by
  unfold set_inprogress_order
  split
  · intro sc hsc
    rcases mem_alistSet hsc with h1 | h1
    · exact h sc h1
    · rw [h1]; exact hc
  · exact h

theorem posDB_del {db : DB} (h : PosDB db) (sid : String) :
    PosDB (delete_inprogress_order db sid) := by
  unfold delete_inprogress_order
  split
  · intro sc hsc; exact h sc (mem_alistDel hsc)
  · exact h

theorem add_to_order_preserves_pos (cat : List CatalogItem) (db : DB)
    (sid : String) (p : Params) (h : PosDB db) :
    PosDB (add_to_order cat db sid p).2 := by
  obtain ⟨fi, nums⟩ := p
  simp only [add_to_order]
  split
  · exact h
  · rename_i hv'
    have hv : (validate_order_params ⟨fi, nums⟩).1 = true := by simpa using hv'
    split
    · exact h
    · rename_i rawQs
      split
      · exact h
      · have hdict : ∀ kv ∈ dictOfZip ((fi.getD []).map sanitize_food_item)
            (rawQs.map (fun q => q.getD 0)), 0 < (kv : String × Int).2 := by
          have hpos : ∀ kv ∈ ((fi.getD []).map sanitize_food_item).zip
              (rawQs.map (fun q => q.getD 0)), 0 < (kv : String × Int).2 := by
            rcases validate_true_pos hv with he | hall
            · subst he
              intro kv hkv
              simp at hkv
            · intro kv hkv
              have h2 := (List.of_mem_zip hkv).2
              rcases List.mem_map.mp h2 with ⟨rq, hrq, he⟩
              rw [← he]
              exact hall rq hrq
          unfold dictOfZip
          exact pos_foldl_alistSet (by intro kv hkv; simp at hkv) hpos
        split
        · exact h
        · rename_i cart hl
          exact posDB_set h
            (addLoop_ok_pos _ _ _ (posCart_get h sid) hdict hl) sid

theorem remove_from_order_preserves_pos (db : DB) (sid : String) (p : Params)
    (h : PosDB db) : PosDB (remove_from_order db sid p).2 := by
  simp only [remove_from_order]
  split
  · exact h
  · split
    · exact h
    · rename_i hval hn
      cases hl : removeLoop (get_inprogress_order db sid) []
          (((p.foodItems.getD []).map sanitize_food_item).zip
            ((resolveRemoveQuantities p
              ((p.foodItems.getD []).map sanitize_food_item).length).map
                (fun q => q.getD 0))) with
      | error u => simp only [hl]; exact h
      | ok res =>
        obtain ⟨cart, removed⟩ := res
        have hsub : PosCart cart := by
          intro kv hkv
          exact posCart_get h sid kv
            (removeLoop_ok_subset _ _ _ _ _ hl kv hkv)
        simp only [hl]
        split
        · exact posDB_del h sid
        · exact posDB_set h hsub sid

/-- One cart operation of the session machine (the two intents that mutate
the in-progress cart). -/
inductive CartOp where
  | addItems (session_id : String) (p : Params)
  | removeItems (session_id : String) (p : Params)

/-- Run one cart operation, keeping the resulting store state. -/
def runCartOp (cat : List CatalogItem) (db : DB) : CartOp → DB
  | CartOp.addItems sid p => (add_to_order cat db sid p).2
  | CartOp.removeItems sid p => (remove_from_order db sid p).2

/-- Run a sequence of cart operations. -/
def runCartOps (cat : List CatalogItem) : DB → List CartOp → DB
  | db, [] => db
  | db, op :: ops => runCartOps cat (runCartOp cat db op) ops

/-! ### Claim C9 — cart positivity invariant -/

/-- C9: cart positivity invariant — running any sequence of AddItems and
RemoveItems operations on a store whose persisted carts all have strictly
positive quantities (in particular the empty store) yields a store with the
same property: no persisted entry ever has quantity ≤ 0, because removal
deletes entries outright and successful adds only merge positive validated
quantities. -/
theorem c9_cart_positivity_invariant (cat : List CatalogItem) (db : DB)
    (ops : List CartOp) (h : PosDB db) : PosDB (runCartOps cat db ops) := by
  induction ops generalizing db with
  | nil => exact h
  | cons op rest ih =>
    show PosDB (runCartOps cat (runCartOp cat db op) rest)
    refine ih (runCartOp cat db op) ?_
    cases op with
    | addItems sid p => exact add_to_order_preserves_pos cat db sid p h
    | removeItems sid p => exact remove_from_order_preserves_pos db sid p h

/-- C9 witness: a concrete run from the empty store — add two pizzas, then
issue a removal for one pizza — ends in a store whose entries are all
positive. -/
theorem c9_cart_positivity_invariant_witness :
    PosDB (runCartOps [{ name := "pizza", price := 10 }] {}
      [CartOp.addItems "s" { foodItems := some ["pizza"], numbers := some [some 2] },
       CartOp.removeItems "s" { foodItems := some ["pizza"], numbers := some [some 1] }]) :=
  c9_cart_positivity_invariant [{ name := "pizza", price := 10 }] {} _ (by decide)

/-! ### Claim C3 — absent items during removal (code bug) -/

/-- C3: failing-input evaluation — removing an item that is absent from the
cart does not succeed with a not-found entry; the unconditional
`del current_order[item]` raises `KeyError`, the handler answers the generic
removal error, and the store is unchanged. -/
theorem c3_remove_absent_item_fails :
    remove_from_order { inprogressOrders := [("s", [("b", 1)])] } "s"
      { foodItems := some ["a"], numbers := none } =
    ({ fulfillmentText := removeErrorMsg, statusCode := "error" },
     { inprogressOrders := [("s", [("b", 1)])] }) := by decide

/-! ### Claim C8 — quantity defaulting (code bug) -/

/-- C8: failing-input evaluation — a call with a valid item list but no
quantity list at all passes validation, but `add_to_order` then reads the
missing `"number"` key (`KeyError`) and answers the generic add error with
no side effects, instead of defaulting each quantity to 1 and succeeding. -/
theorem c8_add_missing_quantities_fails :
    add_to_order [{ name := "pizza", price := 10 }] {} "s"
      { foodItems := some ["pizza"], numbers := none } =
    ({ fulfillmentText := addErrorMsg, statusCode := "error" }, {}) := by decide

/-! ### Claim C5 — SMS number normalization (corrected) -/

/-- C5 counterexample: the claimed example is wrong on the code — a number
without a leading `+` gets `+92` prepended verbatim, so `03001234567`
normalizes to `+9203001234567` and not to the claimed `+923001234567`. -/
theorem c5_sms_normalization_counterexample :
    formatSmsNumber "03001234567" = "+9203001234567" ∧
    "+9203001234567" ≠ "+923001234567" := by decide

theorem strStartsWith_plus_of_plus_zero {s : String}
    (h : strStartsWith s "+0" = true) : strStartsWith s "+" = true := by
  unfold strStartsWith at h ⊢
  have h2 : ("+0" : String).toList = ['+', '0'] := rfl
  have h1 : ("+" : String).toList = ['+'] := rfl
  rw [h2] at h
  rw [h1]
  cases hl : s.toList with
  | nil => rw [hl] at h; simp [List.isPrefixOf] at h
  | cons a t =>
    rw [hl] at h
    simp only [List.isPrefixOf, Bool.and_eq_true] at h
    simp only [List.isPrefixOf, Bool.and_eq_true]
    exact ⟨h.1, trivial⟩

/-- C5 amended: normalization as implemented — a destination without a `+`
gets the default country code `+92` prepended verbatim (the leading `0` is
not stripped), and a destination with the malformed `+0` prefix is rewritten
to `+92` followed by the remainder; hence `03001234567` → `+9203001234567`
and `+0987654321` → `+92987654321`. -/
theorem c5_sms_normalization_amended (s : String) :
    (strStartsWith s "+" = false → formatSmsNumber s = "+92" ++ s) ∧
    (strStartsWith s "+0" = true → formatSmsNumber s = "+92" ++ strDrop s 2) ∧
    formatSmsNumber "03001234567" = "+9203001234567" ∧
    formatSmsNumber "+0987654321" = "+92987654321" := by
  refine ⟨?_, ?_, by decide, by decide⟩
  · intro h
    unfold formatSmsNumber
    rw [h]
    simp
  · intro h
    unfold formatSmsNumber
    rw [strStartsWith_plus_of_plus_zero h, h]
    simp
/-- C5 amended witness: the two normalization rules applied at the spec's
example inputs. -/
theorem c5_sms_normalization_amended_witness :
    formatSmsNumber "03001234567" = "+92" ++ "03001234567" ∧
    formatSmsNumber "+0987654321" = "+92" ++ strDrop "+0987654321" 2 :=
  ⟨(c5_sms_normalization_amended "03001234567").1 (by decide),
   (c5_sms_normalization_amended "+0987654321").2.1 (by decide)⟩

/-! ### Claim C7 — storage failures (corrected) -/

/-- C7 counterexample: with a failing store write, adding a known item still
answers a success response (the data-access helper swallows the exception),
and the persisted store is unchanged — not the claimed storage-error
outcome. -/
theorem c7_storage_failure_counterexample :
    (add_to_order [{ name := "pizza", price := 10 }]
        { writeOk := false } "s"
        { foodItems := some ["pizza"], numbers := some [some 2] }).1.statusCode =
      "success" ∧
    (add_to_order [{ name := "pizza", price := 10 }]
        { writeOk := false } "s"
        { foodItems := some ["pizza"], numbers := some [some 2] }).2 =
      { writeOk := false } := by decide

theorem add_to_order_writeOk_resp (cat : List CatalogItem) (db : DB)
    (sid : String) (p : Params) (b1 b2 : Bool) :
    (add_to_order cat { db with writeOk := b1 } sid p).1 =
      (add_to_order cat { db with writeOk := b2 } sid p).1 := by
  simp only [add_to_order, get_inprogress_order]
  by_cases hv : (!(validate_order_params p).1) = true
  · simp only [if_pos hv]
  · simp only [if_neg hv]
    cases hn : p.numbers with
    | none => rfl
    | some rawQs =>
      by_cases ha : (rawQs.any fun q => q.isNone) = true
      · simp only [if_pos ha]
      · simp only [if_neg ha]
        cases hl : addLoop cat ((alistGet db.inprogressOrders sid).getD [])
            (dictOfZip ((p.foodItems.getD []).map sanitize_food_item)
              (rawQs.map (fun q => q.getD 0))) with
        | error item => rfl
        | ok cart => rfl

theorem add_to_order_writeOk_false_db (cat : List CatalogItem) (db : DB)
    (sid : String) (p : Params) :
    (add_to_order cat { db with writeOk := false } sid p).2 =
      { db with writeOk := false } := by
  simp only [add_to_order, get_inprogress_order]
  by_cases hv : (!(validate_order_params p).1) = true
  · simp only [if_pos hv]
  · simp only [if_neg hv]
    cases hn : p.numbers with
    | none => rfl
    | some rawQs =>
      by_cases ha : (rawQs.any fun q => q.isNone) = true
      · simp only [if_pos ha]
      · simp only [if_neg ha]
        cases hl : addLoop cat ((alistGet db.inprogressOrders sid).getD [])
            (dictOfZip ((p.foodItems.getD []).map sanitize_food_item)
              (rawQs.map (fun q => q.getD 0))) with
        | error item => rfl
        | ok cart => simp [set_inprogress_order]

theorem remove_from_order_writeOk_resp (db : DB) (sid : String) (p : Params)
    (b1 b2 : Bool) :
    (remove_from_order { db with writeOk := b1 } sid p).1 =
      (remove_from_order { db with writeOk := b2 } sid p).1 := by
  simp only [remove_from_order, get_inprogress_order]
  by_cases hv : (!(validate_order_params p).1) = true
  · simp only [if_pos hv]
  · simp only [if_neg hv]
    by_cases ha : ((resolveRemoveQuantities p
        ((p.foodItems.getD []).map sanitize_food_item).length).any
          fun q => q.isNone) = true
    · simp only [if_pos ha]
    · simp only [if_neg ha]
      cases hl : removeLoop ((alistGet db.inprogressOrders sid).getD []) []
          (((p.foodItems.getD []).map sanitize_food_item).zip
            ((resolveRemoveQuantities p
              ((p.foodItems.getD []).map sanitize_food_item).length).map
                (fun q => q.getD 0))) with
      | error u => rfl
      | ok res =>
        obtain ⟨cart, removed⟩ := res
        by_cases hc : cart.isEmpty = true
        · simp only [if_pos hc]
        · simp only [if_neg hc]

theorem remove_from_order_writeOk_false_db (db : DB) (sid : String) (p : Params) :
    (remove_from_order { db with writeOk := false } sid p).2 =
      { db with writeOk := false } := by
  simp only [remove_from_order, get_inprogress_order]
  by_cases hv : (!(validate_order_params p).1) = true
  · simp only [if_pos hv]
  · simp only [if_neg hv]
    by_cases ha : ((resolveRemoveQuantities p
        ((p.foodItems.getD []).map sanitize_food_item).length).any
          fun q => q.isNone) = true
    · simp only [if_pos ha]
    · simp only [if_neg ha]
      cases hl : removeLoop ((alistGet db.inprogressOrders sid).getD []) []
          (((p.foodItems.getD []).map sanitize_food_item).zip
            ((resolveRemoveQuantities p
              ((p.foodItems.getD []).map sanitize_food_item).length).map
                (fun q => q.getD 0))) with
      | error u => rfl
      | ok res =>
        obtain ⟨cart, removed⟩ := res
        by_cases hc : cart.isEmpty = true
        · simp only [if_pos hc]
          simp [delete_inprogress_order]
        · simp only [if_neg hc]
          simp [set_inprogress_order]

/-- C7 amended: a failing cart/contact store write is never surfaced — the
data-access helpers catch and log the exception, so AddItems and RemoveItems
return exactly the response they would return with a healthy store (success
included), CollectContact (phone or email) still reports success, and in all
cases the failing store is simply left unchanged.  The generic error outcome
only arises from exceptions that escape the helpers, not from store
failures. -/
theorem c7_storage_failure_swallowed (cat : List CatalogItem) (db : DB)
    (sid : String) (p : Params) (ph em : String) :
    ((add_to_order cat { db with writeOk := false } sid p).1 =
      (add_to_order cat { db with writeOk := true } sid p).1) ∧
    ((add_to_order cat { db with writeOk := false } sid p).2 =
      { db with writeOk := false }) ∧
    ((remove_from_order { db with writeOk := false } sid p).1 =
      (remove_from_order { db with writeOk := true } sid p).1) ∧
    ((remove_from_order { db with writeOk := false } sid p).2 =
      { db with writeOk := false }) ∧
    ((collect_phone_number { db with writeOk := false } sid (some ph)).1.statusCode =
      "success") ∧
    ((collect_phone_number { db with writeOk := false } sid (some ph)).2 =
      { db with writeOk := false }) ∧
    ((collect_email { db with writeOk := false } sid (some em)).1.statusCode =
      "success") ∧
    ((collect_email { db with writeOk := false } sid (some em)).2 =
      { db with writeOk := false }) := by
  refine ⟨add_to_order_writeOk_resp cat db sid p false true,
    add_to_order_writeOk_false_db cat db sid p,
    remove_from_order_writeOk_resp db sid p false true,
    remove_from_order_writeOk_false_db db sid p, ?_, ?_, ?_, ?_⟩
  · simp [collect_phone_number, set_user_phone]
  · simp [collect_phone_number, set_user_phone]
  · simp [collect_email, set_user_email]
  · simp [collect_email, set_user_email]

/-! ### Claim C1 — AddItems all-or-nothing -/

/-- C1: AddItems is all-or-nothing on unknown items — for any session and
any well-formed call (item list with a matching, integer-parsing quantity
list that passes validation) in which some item's sanitized name has no
catalog entry, the call answers the item-not-found error naming an offending
item and the persisted store equals the store before the call. -/
theorem c1_addItems_all_or_nothing (cat : List CatalogItem) (db : DB)
    (sid : String) (p : Params) (raw : List String) (rawQs : List (Option Int))
    (hraw : p.foodItems = some raw) (hnum : p.numbers = some rawQs)
    (hval : validate_order_params p = (true, ""))
    (hlen : rawQs.length = raw.length)
    (hparse : rawQs.all (fun q => q.isSome) = true)
    (hbad : ∃ r ∈ raw, food_item_exists cat (sanitize_food_item r) = false) :
    (add_to_order cat db sid p).2 = db ∧
    (add_to_order cat db sid p).1.statusCode = "error" ∧
    ∃ item ∈ raw.map sanitize_food_item, food_item_exists cat item = false ∧
      (add_to_order cat db sid p).1.fulfillmentText =
        "Sorry, " ++ item ++ " is not available in our menu." := by
  obtain ⟨fi, nums⟩ := p
  simp only at hraw hnum
  subst hraw
  subst hnum
  have hanyF : (rawQs.any fun q => q.isNone) = false := by
    rw [List.any_eq_false]
    intro q hq
    have hs := List.all_eq_true.mp hparse q hq
    cases q with
    | none => simp at hs
    | some v => simp
  have hkeys : (((raw.map sanitize_food_item)).zip
      (rawQs.map fun q => q.getD 0)).map Prod.fst = raw.map sanitize_food_item := by
    apply List.map_fst_zip
    simp [hlen]
  rcases hbad with ⟨r, hr, hbadr⟩
  have hxmem : sanitize_food_item r ∈ raw.map sanitize_food_item :=
    List.mem_map_of_mem _ hr
  have hkey : ∃ v, (sanitize_food_item r, v) ∈
      dictOfZip (raw.map sanitize_food_item) (rawQs.map fun q => q.getD 0) := by
    unfold dictOfZip
    exact key_mem_foldl_alistSet (Or.inr (by rw [hkeys]; exact hxmem))
  rcases hkey with ⟨v, hv⟩
  rcases addLoop_error_of_bad
      (dictOfZip (raw.map sanitize_food_item) (rawQs.map fun q => q.getD 0))
      (get_inprogress_order db sid)
      ⟨(sanitize_food_item r, v), hv, hbadr⟩ with ⟨item, heq, hmem, hbaditem⟩
  have hitem : item ∈ raw.map sanitize_food_item := by
    rcases List.mem_map.mp hmem with ⟨kv, hkv, hfst⟩
    unfold dictOfZip at hkv
    rcases mem_foldl_alistSet hkv with h0 | h0
    · simp at h0
    · rw [← hfst]; rw [hkeys] at h0; exact h0
  simp only [add_to_order, Option.getD_some]
  rw [if_neg (by rw [hval]; simp)]
  rw [if_neg (by rw [hanyF]; simp)]
  simp only [heq]
  exact ⟨by trivial, by trivial, item, hitem, hbaditem, by trivial⟩

/-- C1 witness: adding the unknown item `sushi` against a one-item catalog
fails naming it and leaves the empty store unchanged. -/
theorem c1_addItems_all_or_nothing_witness :
    (add_to_order [{ name := "pizza", price := 10 }] {} "s"
        { foodItems := some ["sushi"], numbers := some [some 1] }).2 = {} ∧
    (add_to_order [{ name := "pizza", price := 10 }] {} "s"
        { foodItems := some ["sushi"], numbers := some [some 1] }).1.statusCode =
      "error" ∧
    ∃ item ∈ ["sushi"].map sanitize_food_item,
      food_item_exists [{ name := "pizza", price := 10 }] item = false ∧
      (add_to_order [{ name := "pizza", price := 10 }] {} "s"
          { foodItems := some ["sushi"], numbers := some [some 1] }).1.fulfillmentText =
        "Sorry, " ++ item ++ " is not available in our menu." :=
  c1_addItems_all_or_nothing [{ name := "pizza", price := 10 }] {} "s"
    { foodItems := some ["sushi"], numbers := some [some 1] } ["sushi"] [some 1]
    rfl rfl (by decide) (by decide) (by decide)
    ⟨"sushi", by decide, by decide⟩

/-! ### Claim C2 — RemoveItems one-shot removal (corrected) -/

/-- C2 counterexample: the claim fails on a request naming the same item
twice — on cart `{a: 5}` the request `remove ["a","a"]` has every named item
present in the cart, yet the call answers the generic removal error (the
second occurrence hits the unconditional delete's `KeyError`) and `a` is
still present in the persisted cart. -/
theorem c2_remove_duplicates_counterexample :
    (remove_from_order { inprogressOrders := [("s", [("a", 5)])] } "s"
        { foodItems := some ["a", "a"], numbers := some [some 1, some 1] }).1.statusCode =
      "error" ∧
    (remove_from_order { inprogressOrders := [("s", [("a", 5)])] } "s"
        { foodItems := some ["a", "a"], numbers := some [some 1, some 1] }).2 =
      { inprogressOrders := [("s", [("a", 5)])] } ∧
    (∀ i ∈ ["a", "a"], alistHas (get_inprogress_order
        { inprogressOrders := [("s", [("a", 5)])] } "s") (sanitize_food_item i) = true) := by
  decide

theorem zip_map_fst_sublist {α β : Type} :
    ∀ (l1 : List α) (l2 : List β), ((l1.zip l2).map Prod.fst).Sublist l1 := by
  intro l1
  induction l1 with
  | nil => intro l2; simp
  | cons a t ih =>
    intro l2
    cases l2 with
    | nil => simp
    | cons b s => simpa using (ih s).cons₂ a

/-- C2 amended: one-shot removal holds for requests whose (sanitized) named
items are pairwise distinct — then, when every named item is present in the
cart, the call succeeds, every named item is entirely absent from the
returned remaining cart even when the requested quantity is below the stored
quantity, and each reported removed quantity is `min(current, requested)`.
(Distinctness is forced by the counterexample: a duplicated name makes the
second occurrence absent after the first unconditional delete, aborting the
call with an error.) -/
theorem c2_removeItems_one_shot (db : DB) (sid : String) (p : Params)
    (raw : List String)
    (hraw : p.foodItems = some raw)
    (hval : validate_order_params p = (true, ""))
    (hnodup : (raw.map sanitize_food_item).Nodup)
    (hparse : (resolveRemoveQuantities p (raw.map sanitize_food_item).length).all
      (fun q => q.isSome) = true)
    (hqlen : (resolveRemoveQuantities p (raw.map sanitize_food_item).length).length =
      (raw.map sanitize_food_item).length)
    (hpres : ∀ item ∈ raw.map sanitize_food_item,
      alistHas (get_inprogress_order db sid) item = true) :
    (remove_from_order db sid p).1.statusCode = "success" ∧
    (∀ item ∈ raw.map sanitize_food_item,
      alistHas (((remove_from_order db sid p).1.remainingItems).getD []) item = false) ∧
    (remove_from_order db sid p).1.removedItems =
      some (((raw.map sanitize_food_item).zip
          ((resolveRemoveQuantities p (raw.map sanitize_food_item).length).map
            (fun q => q.getD 0))).map
        (fun kv => toString (min (alistGetD (get_inprogress_order db sid) kv.1 0) kv.2) ++
          " " ++ kv.1)) := by
  obtain ⟨fi, nums⟩ := p
  simp only at hraw
  subst hraw
  have hanyF : ((resolveRemoveQuantities ⟨some raw, nums⟩
      (raw.map sanitize_food_item).length).any fun q => q.isNone) = false := by
    rw [List.any_eq_false]
    intro q hq
    have hs := List.all_eq_true.mp hparse q hq
    cases q with
    | none => simp at hs
    | some v => simp
  have hndk : ((((raw.map sanitize_food_item)).zip
      ((resolveRemoveQuantities ⟨some raw, nums⟩
        (raw.map sanitize_food_item).length).map fun q => q.getD 0)).map Prod.fst).Nodup :=
    List.Sublist.nodup (zip_map_fst_sublist _ _) hnodup
  have hprestodo : ∀ kv ∈ ((raw.map sanitize_food_item)).zip
      ((resolveRemoveQuantities ⟨some raw, nums⟩
        (raw.map sanitize_food_item).length).map fun q => q.getD 0),
      alistHas (get_inprogress_order db sid) (kv : String × Int).1 = true := by
    intro kv hkv
    exact hpres kv.1 (List.of_mem_zip hkv).1
  rcases removeLoop_all_present _ (get_inprogress_order db sid) [] hndk hprestodo with
    ⟨cart, heq, habs⟩
  have hkeys : ((((raw.map sanitize_food_item)).zip
      ((resolveRemoveQuantities ⟨some raw, nums⟩
        (raw.map sanitize_food_item).length).map fun q => q.getD 0)).map Prod.fst) =
      raw.map sanitize_food_item := by
    apply List.map_fst_zip
    simp only [List.length_map] at hqlen ⊢
    exact le_of_eq hqlen.symm
  have habs2 : ∀ item ∈ raw.map sanitize_food_item, alistHas cart item = false := by
    intro item hitem
    rw [← hkeys] at hitem
    rcases List.mem_map.mp hitem with ⟨kv, hkv, hfst⟩
    rw [← hfst]
    exact habs kv hkv
  simp only [remove_from_order, Option.getD_some]
  rw [if_neg (by rw [hval]; simp)]
  rw [if_neg (by rw [hanyF]; simp)]
  simp only [heq, List.nil_append]
  by_cases hc : cart.isEmpty = true
  · rw [if_pos hc]
    refine ⟨rfl, ?_, rfl⟩
    intro item hitem
    rfl
  · rw [if_neg hc]
    refine ⟨rfl, ?_, rfl⟩
    intro item hitem
    exact habs2 item hitem

/-- C2 amended witness: on cart `{a: 5}`, removing one `a` succeeds, `a` is
absent from the returned remaining cart, and the reported removed quantity
is `min(5, 1) = 1`. -/
theorem c2_removeItems_one_shot_witness :
    (remove_from_order { inprogressOrders := [("s", [("a", 5)])] } "s"
        { foodItems := some ["a"], numbers := some [some 1] }).1.statusCode = "success" ∧
    (∀ item ∈ ["a"].map sanitize_food_item,
      alistHas (((remove_from_order { inprogressOrders := [("s", [("a", 5)])] } "s"
        { foodItems := some ["a"], numbers := some [some 1] }).1.remainingItems).getD [])
        item = false) ∧
    (remove_from_order { inprogressOrders := [("s", [("a", 5)])] } "s"
        { foodItems := some ["a"], numbers := some [some 1] }).1.removedItems =
      some (((["a"].map sanitize_food_item).zip
          ((resolveRemoveQuantities { foodItems := some ["a"], numbers := some [some 1] }
            (["a"].map sanitize_food_item).length).map (fun q => q.getD 0))).map
        (fun kv => toString (min (alistGetD (get_inprogress_order
            { inprogressOrders := [("s", [("a", 5)])] } "s") kv.1 0) kv.2) ++
          " " ++ kv.1)) :=
  c2_removeItems_one_shot { inprogressOrders := [("s", [("a", 5)])] } "s"
    { foodItems := some ["a"], numbers := some [some 1] } ["a"]
    rfl (by decide) (by decide) (by decide) (by decide) (by decide)

/-! ### Claim C4 — WhatsApp provider fallback chain -/

/-- C4: the WhatsApp fallback chain tries the business API, then GreenAPI,
then the local logging provider, in that fixed order; an unconfigured
provider is skipped without being attempted; the chain stops at the first
provider reporting success; the channel result is always a success in the
end because the local provider succeeds by design — in particular, when
neither the business API nor GreenAPI is configured the result is
`success = true` with only the local provider attempted. -/
theorem c4_whatsapp_fallback (cfg : NotifConfig) (net : Network) (n : String) :
    ((cfg.whatsappToken.isSome && cfg.whatsappPhoneId.isSome) = false →
      "business_api" ∉ (send_whatsapp cfg net n).2) ∧
    ((cfg.greenapiToken.isSome && cfg.greenapiInstanceId.isSome) = false →
      "greenapi" ∉ (send_whatsapp cfg net n).2) ∧
    ((cfg.whatsappToken.isSome && cfg.whatsappPhoneId.isSome) = true →
      net.businessApiOk = true →
      (send_whatsapp cfg net n).1 = send_whatsapp_business_api net ∧
      (send_whatsapp cfg net n).2 = ["business_api"]) ∧
    ((cfg.whatsappToken.isSome && cfg.whatsappPhoneId.isSome) = true →
      net.businessApiOk = false →
      (cfg.greenapiToken.isSome && cfg.greenapiInstanceId.isSome) = true →
      net.greenapiOk = true →
      (send_whatsapp cfg net n).1 = send_whatsapp_greenapi net ∧
      (send_whatsapp cfg net n).2 = ["business_api", "greenapi"]) ∧
    ((send_whatsapp cfg net n).1.success = true) ∧
    ((cfg.whatsappToken.isSome && cfg.whatsappPhoneId.isSome) = false →
      (cfg.greenapiToken.isSome && cfg.greenapiInstanceId.isSome) = false →
      (send_whatsapp cfg net n).1 = send_whatsapp_simple ∧
      (send_whatsapp cfg net n).2 = ["simple"]) := by
  cases hb : cfg.whatsappToken.isSome && cfg.whatsappPhoneId.isSome <;>
  cases hg : cfg.greenapiToken.isSome && cfg.greenapiInstanceId.isSome <;>
  cases hB : net.businessApiOk <;>
  cases hG : net.greenapiOk <;>
    simp [send_whatsapp, chainStep, send_whatsapp_business_api,
      send_whatsapp_greenapi, send_whatsapp_simple, hb, hg, hB, hG]

/-- C4 witness: with no real provider configured, the channel succeeds via
the local provider alone. -/
theorem c4_whatsapp_fallback_witness :
    (send_whatsapp {} {} "+03001234567").1 = send_whatsapp_simple ∧
    (send_whatsapp {} {} "+03001234567").2 = ["simple"] :=
  (c4_whatsapp_fallback {} {} "+03001234567").2.2.2.2.2 rfl rfl

/-! ### Claim C6 — dispatch is independent and partial -/

/-- C6: notification dispatch is independent and partial — the outcome
mapping names exactly the attempted channels (sms and whatsapp if and only
if a phone is present, email if and only if an email is present), and each
channel's entry is that channel's own send result, whatever the other
channels' providers report (the `Network` oracle is arbitrary). -/
theorem c6_dispatch_independent_partial (cfg : NotifConfig) (net : Network)
    (ui : Contact) (od : OrderDetails) :
    ((send_order_confirmation cfg net ui od).map Prod.fst =
      (if ui.phone.isSome then ["sms", "whatsapp"] else []) ++
        (if ui.email.isSome then ["email"] else [])) ∧
    alistGet (send_order_confirmation cfg net ui od) "sms" =
      ui.phone.map (fun ph => send_sms cfg net ph (create_order_confirmation_sms od)) ∧
    alistGet (send_order_confirmation cfg net ui od) "whatsapp" =
      ui.phone.map (fun ph => (send_whatsapp cfg net ph).1) ∧
    alistGet (send_order_confirmation cfg net ui od) "email" =
      ui.email.map (fun em => send_email cfg net em
        ("Order Confirmation - " ++ od.orderId)
        (create_order_confirmation_email_html od)) := by
  obtain ⟨phv, emv⟩ := ui
  cases phv <;> cases emv <;>
    simp [send_order_confirmation, alistGet, List.find?]

/-! ### Claim C10 — missing catalog item prices as zero -/

theorem get_item_price_eq_zero {cat : List CatalogItem} {x : String}
    (h : food_item_exists cat x = false) : get_item_price cat x = 0 := by
  have hn : (cat.find? fun c => lowerString c.name == lowerString x) = none := by
    rw [List.find?_eq_none]
    intro c hc
    have hcf := List.any_eq_false.mp h c hc
    simp only [hcf]
    exact Bool.false_ne_true
  unfold get_item_price
  rw [hn]

/-- C10: Summarize and Commit never fail on a cart item that is missing from
the catalog — the price lookup returns 0 for the missing item, both
operations answer a success status, and the missing item contributes 0 to
the total. -/
theorem c10_missing_item_contributes_zero (cfg : NotifConfig) (net : Network)
    (cat : List CatalogItem) (db : DB) (sid : String) (now : Int) (x : String)
    (hx : alistHas (get_inprogress_order db sid) x = true)
    (hmiss : food_item_exists cat x = false) :
    get_item_price cat x = 0 ∧
    (order_summary_intent cat db sid).statusCode = "success" ∧
    (complete_order cfg net cat db sid now).1.statusCode = "success" ∧
    ∀ q : Int, (x, q) ∈ get_inprogress_order db sid →
      q * get_item_price cat x = 0 := by
  have hzero := get_item_price_eq_zero hmiss
  have hne : (get_inprogress_order db sid).isEmpty = false := by
    rcases alistHas_true_iff.mp hx with ⟨v, hv⟩
    cases h2 : get_inprogress_order db sid with
    | nil => rw [h2] at hv; simp at hv
    | cons a t => rfl
  refine ⟨hzero, ?_, ?_, ?_⟩
  · simp only [order_summary_intent, hne, Bool.false_eq_true, if_false]
  · simp only [complete_order, hne, Bool.false_eq_true, if_false]
    cases hph : get_user_phone db sid <;> cases hem : get_user_email db sid <;> rfl
  · intro q hq
    rw [hzero, mul_zero]

/-- C10 witness: a cart holding only the stale item `ghost` (absent from the
one-item catalog) — the price lookup is 0 and both summarize and commit
report success. -/
theorem c10_missing_item_contributes_zero_witness :
    get_item_price [{ name := "pizza", price := 10 }] "ghost" = 0 ∧
    (order_summary_intent [{ name := "pizza", price := 10 }]
      { inprogressOrders := [("s", [("ghost", 2)])] } "s").statusCode = "success" ∧
    (complete_order {} {} [{ name := "pizza", price := 10 }]
      { inprogressOrders := [("s", [("ghost", 2)])] } "s" 111).1.statusCode = "success" ∧
    ∀ q : Int, ("ghost", q) ∈ get_inprogress_order
        { inprogressOrders := [("s", [("ghost", 2)])] } "s" →
      q * get_item_price [{ name := "pizza", price := 10 }] "ghost" = 0 :=
  c10_missing_item_contributes_zero {} {} [{ name := "pizza", price := 10 }]
    { inprogressOrders := [("s", [("ghost", 2)])] } "s" 111 "ghost"
    (by decide) (by decide)

end FoodBot
